import Mathlib

/-!
Shallow embedding of the cause-chain traversal and retry-decision core of
the `base-error-ts` repository (files `src/traversal/cause-chain.ts`,
`src/traversal/guards.ts`, `src/traversal/retryability.ts`,
`src/errors/guards.ts`), together with the parts of the JavaScript value
model those functions observe.

JavaScript values are modelled by `JSValue`: the primitives the code can
meet (`undefined`, `null`, booleans, numbers, strings) plus object
references, identified by a numeric id into an explicit heap.  A heap maps
every id to an `ObjData`: the object's own enumerable fields (an
association list, property access on a missing key gives `undefined`) and
whether the object is an `instanceof StructuredError`.  Object identity -
the notion the traversal's `Set`-based cycle detection uses - is id
equality.

The generator `traverseCauseChain` is embedded as a fuel-indexed function
returning the full trace it would produce: the list of yielded values in
order, paired with a flag that is `true` exactly when the generator ends by
throwing the circular-cause-chain error (the throw always happens while
producing the element after the last yielded one, so the trace shape
`(yields, threw)` is faithful to the lazy generator: a consumer that stops
pulling before the end never observes the throw).  Throwing functions are
embedded in `Except String`.
-/

namespace BaseErrorTs

/-- A JavaScript value as observed by the traversal code: the relevant
primitives plus object references into an explicit heap. -/
inductive JSValue where
  | undef
  | null
  | boolean (b : Bool)
  | number (n : Int)
  | string (s : String)
  | obj (id : Nat)
deriving DecidableEq

/-- The data of one heap object: its own enumerable fields and whether it
is an `instanceof StructuredError`. -/
structure ObjData where
  fields : List (String × JSValue)
  instOfStructuredError : Bool
deriving DecidableEq

/-- A JavaScript heap: every object id carries some object data. -/
abbrev Heap := Nat → ObjData

/-- Object with no fields, not an instance of anything of interest. -/
def emptyObj : ObjData := ⟨[], false⟩

/-- Build a heap from an association list of object ids. -/
def heapOfList (l : List (Nat × ObjData)) : Heap :=
  fun id => (l.lookup id).getD emptyObj

/-- Look up an own field of an object (`none` means the key is absent). -/
def getOwn (o : ObjData) (k : String) : Option JSValue :=
  o.fields.lookup k

/-- `typeof value === "object"`: true for objects and for `null`. -/
def typeofIsObject : JSValue → Bool
  | .null => true
  | .obj _ => true
  | _ => false

/-- `typeof value === "string"`. -/
def typeofIsString : JSValue → Bool
  | .string _ => true
  | _ => false

/-- `typeof value === "boolean"`. -/
def typeofIsBoolean : JSValue → Bool
  | .boolean _ => true
  | _ => false

/-- Property read `value[k]`: an absent key or a non-object receiver gives
`undefined` (the code only reads properties behind its own guards). -/
def getProp (H : Heap) (v : JSValue) (k : String) : JSValue :=
  match v with
  | .obj id => (getOwn (H id) k).getD JSValue.undef
  | _ => JSValue.undef

/-- The `"k" in value` check on an object; false on non-objects. -/
def hasProp (H : Heap) (v : JSValue) (k : String) : Bool :=
  match v with
  | .obj id => (getOwn (H id) k).isSome
  | _ => false

/-- `isErrorWithCause` from `src/traversal/guards.ts`:
`typeof value === "object" && value !== null && "cause" in value`. -/
def isErrorWithCause (H : Heap) (value : JSValue) : Bool :=
  typeofIsObject value && !(value == JSValue.null) && hasProp H value "cause"

/-- `isStructuredError` from `src/errors/guards.ts` (the file the
traversal guards import): `value instanceof StructuredError`. -/
def isStructuredError (H : Heap) (value : JSValue) : Bool :=
  match value with
  | .obj id => (H id).instOfStructuredError
  | _ => false

/-- The two-phase variant of `isStructuredError` also shipped in the
repository (bundled with `StructuredError.ts` and exercised by the guard
test suite): `instanceof` fast path, then duck-typing fallback requiring a
string `code`, a string `category` and a boolean `retryable`. -/
def isStructuredErrorDuckTyped (H : Heap) (value : JSValue) : Bool :=
  isStructuredError H value ||
    (typeofIsObject value && !(value == JSValue.null) &&
      typeofIsString (getProp H value "code") &&
      typeofIsString (getProp H value "category") &&
      typeofIsBoolean (getProp H value "retryable"))

/-- `isRetryableStructuredError` from `src/traversal/guards.ts`:
`isStructuredError(value) && value.retryable === true`. -/
def isRetryableStructuredError (H : Heap) (value : JSValue) : Bool :=
  isStructuredError H value && (getProp H value "retryable" == JSValue.boolean true)

/-- The message of the error thrown on a circular cause chain. -/
def circularMsg : String := "Circular cause chain detected"

/-- Trace of the generator `traverseCauseChain` from
`src/traversal/cause-chain.ts`, indexed by remaining loop iterations
(`fuel = maxDepth + 1 - depth`).  Each iteration yields `current`, breaks
if `current` has no cause, throws if `current` was already seen (the flag
of the result), otherwise records `current` and follows its `cause`. -/
def traverseAux (H : Heap) : JSValue → List Nat → Nat → List JSValue × Bool
  | _, _, 0 => ([], false)
  | current, seen, fuel + 1 =>
    if isErrorWithCause H current then
      match current with
      | .obj id =>
        if id ∈ seen then ([current], true)
        else
          let rest := traverseAux H (getProp H current "cause") (id :: seen) fuel
          (current :: rest.1, rest.2)
      | _ => ([current], false)
    else ([current], false)

/-- `traverseCauseChain(error, maxDepth)`: the loop runs for
`depth = 0 .. maxDepth`, i.e. `(maxDepth + 1).toNat` iterations (none when
`maxDepth` is negative). -/
def traverseCauseChain (H : Heap) (error : JSValue) (maxDepth : Int) :
    List JSValue × Bool :=
  traverseAux H error [] (maxDepth + 1).toNat

/-- `getRootCause(error, maxDepth = 100)`: the last yielded value
(initialised to `error`), or the circular-chain error. -/
def getRootCause (H : Heap) (error : JSValue) (maxDepth : Int := 100) :
    Except String JSValue :=
  let t := traverseCauseChain H error maxDepth
  if t.2 then .error circularMsg else .ok (t.1.getLastD error)

/-- `findInCauseChain(error, predicate, maxDepth = 100)`: the first yielded
value satisfying the predicate, else `undefined`; the lazy generator means
a match short-circuits before the throw that could only happen past the
last yield. -/
def findInCauseChain (H : Heap) (error : JSValue) (predicate : JSValue → Bool)
    (maxDepth : Int := 100) : Except String JSValue :=
  let t := traverseCauseChain H error maxDepth
  match t.1.find? predicate with
  | some v => .ok v
  | none => if t.2 then .error circularMsg else .ok JSValue.undef

/-- `filterCauseChain(error, predicate, maxDepth = 100)`: consumes the
whole sequence, so a circular throw always propagates. -/
def filterCauseChain (H : Heap) (error : JSValue) (predicate : JSValue → Bool)
    (maxDepth : Int := 100) : Except String (List JSValue) :=
  let t := traverseCauseChain H error maxDepth
  if t.2 then .error circularMsg else .ok (t.1.filter predicate)

/-- `someCauseChain(error, predicate, maxDepth = 100)`:
`findInCauseChain(...) !== undefined`. -/
def someCauseChain (H : Heap) (error : JSValue) (predicate : JSValue → Bool)
    (maxDepth : Int := 100) : Except String Bool :=
  (findInCauseChain H error predicate maxDepth).map
    (fun r => !(r == JSValue.undef))

/-- `everyCauseChain(error, predicate, maxDepth = 100)`: returns `false` at
the first failing yield (abandoning the generator before any later throw),
else consumes the whole sequence. -/
def everyCauseChain (H : Heap) (error : JSValue) (predicate : JSValue → Bool)
    (maxDepth : Int := 100) : Except String Bool :=
  let t := traverseCauseChain H error maxDepth
  if t.1.all predicate then
    (if t.2 then .error circularMsg else .ok true)
  else .ok false

/-- `isChainRetryable(error)` from `src/traversal/retryability.ts`:
`findInCauseChain(error, isRetryableStructuredError) !== undefined`. -/
def isChainRetryable (H : Heap) (error : JSValue) : Except String Bool :=
  (findInCauseChain H error (fun e => isRetryableStructuredError H e)).map
    (fun r => !(r == JSValue.undef))

/-- `getRootCauseRetryable(error)`: test the retryable-shape predicate on
the root cause only. -/
def getRootCauseRetryable (H : Heap) (error : JSValue) : Except String Bool :=
  (getRootCause H error).map (fun root => isRetryableStructuredError H root)

/-- `getFirstRetryableCause(error)`: the first retryable node, else
`undefined`. -/
def getFirstRetryableCause (H : Heap) (error : JSValue) : Except String JSValue :=
  findInCauseChain H error (fun e => isRetryableStructuredError H e)

/-! Concrete heaps used by the concrete theorems. -/

/-- Heap with a duck-typed plain object at id 0 (`{ code: "ERR",
category: "CAT", retryable: true }`, not a `StructuredError` instance) and
at id 1 a plain error object whose `cause` is that object. -/
def duckHeap : Heap :=
  heapOfList
    [(0, ⟨[("code", JSValue.string "ERR"), ("category", JSValue.string "CAT"),
           ("retryable", JSValue.boolean true)], false⟩),
     (1, ⟨[("cause", JSValue.obj 0)], false⟩)]

/-- Heap with a single self-referential node: `A.cause = A`. -/
def selfLoopHeap : Heap :=
  heapOfList [(0, ⟨[("cause", JSValue.obj 0)], false⟩)]

/-- Heap with a two-node cycle: `A.cause = B; B.cause = A`. -/
def twoCycleHeap : Heap :=
  heapOfList
    [(0, ⟨[("cause", JSValue.obj 1)], false⟩),
     (1, ⟨[("cause", JSValue.obj 0)], false⟩)]

/-- Acyclic linear chain of `n` nodes: node `i` has `cause` node `i + 1`
for `i + 1 < n`; the last node has no `cause` field. -/
def linHeap (n : Nat) : Heap :=
  fun i => if i + 1 < n then ⟨[("cause", JSValue.obj (i + 1))], false⟩ else emptyObj

/-- Heap where the single node's `cause` is `null`. -/
def nullCauseHeap : Heap :=
  heapOfList [(0, ⟨[("cause", JSValue.null)], false⟩)]

/-- Heap with a retryable `StructuredError` instance at the top whose root
cause is a non-retryable instance. -/
def topRetryableHeap : Heap :=
  heapOfList
    [(0, ⟨[("retryable", JSValue.boolean true), ("cause", JSValue.obj 1)], true⟩),
     (1, ⟨[("retryable", JSValue.boolean false)], true⟩)]

/-- Heap with one retryable `StructuredError` instance and no cause. -/
def retryableRootHeap : Heap :=
  heapOfList [(0, ⟨[("retryable", JSValue.boolean true)], true⟩)]

/-! General lemmas about the traversal trace. -/

/-- The object id of a value, if it is an object reference. -/
def objId? : JSValue → Option Nat
  | .obj id => some id
  | _ => none

/-- Unfolding: zero iterations yield nothing. -/
theorem traverseAux_zero (H : Heap) (cur : JSValue) (seen : List Nat) :
    traverseAux H cur seen 0 = ([], false) := rfl

/-- Unfolding: one iteration on an object yields it, then either breaks,
throws on a seen id, or follows the cause. -/
theorem traverseAux_succ_obj (H : Heap) (id : Nat) (seen : List Nat) (n : Nat) :
    traverseAux H (JSValue.obj id) seen (n + 1) =
      if isErrorWithCause H (JSValue.obj id) then
        if id ∈ seen then ([JSValue.obj id], true)
        else
          (JSValue.obj id ::
              (traverseAux H (getProp H (JSValue.obj id) "cause") (id :: seen) n).1,
            (traverseAux H (getProp H (JSValue.obj id) "cause") (id :: seen) n).2)
      else ([JSValue.obj id], false) := rfl

/-- Unfolding: one iteration on a non-object yields it and breaks
(`isErrorWithCause` is false on every non-object). -/
theorem traverseAux_succ_prim (H : Heap) (cur : JSValue) (seen : List Nat)
    (n : Nat) (h : objId? cur = none) :
    traverseAux H cur seen (n + 1) = ([cur], false) := by
  rcases cur with _ | _ | b | m | s | id
  · rfl
  · rfl
  · rfl
  · rfl
  · rfl
  · simp [objId?] at h

/-- `isErrorWithCause` holds only on object references. -/
theorem isErrorWithCause_obj (H : Heap) (cur : JSValue)
    (h : isErrorWithCause H cur = true) : ∃ id, cur = JSValue.obj id := by
  rcases cur with _ | _ | b | m | s | id
  · simp [isErrorWithCause, typeofIsObject] at h
  · simp [isErrorWithCause] at h
  · simp [isErrorWithCause, typeofIsObject] at h
  · simp [isErrorWithCause, typeofIsObject] at h
  · simp [isErrorWithCause, typeofIsObject] at h
  · exact ⟨id, rfl⟩

/-- The trace never yields more values than it has loop iterations. -/
theorem traverseAux_length_le (H : Heap) :
    ∀ (fuel : Nat) (cur : JSValue) (seen : List Nat),
      (traverseAux H cur seen fuel).1.length ≤ fuel := by
  intro fuel
  induction fuel with
  | zero => intro cur seen; simp [traverseAux_zero]
  | succ n ih =>
    intro cur seen
    rcases cur with _ | _ | b | m | s | id
    · rw [traverseAux_succ_prim H JSValue.undef seen n rfl]; simp
    · rw [traverseAux_succ_prim H JSValue.null seen n rfl]; simp
    · rw [traverseAux_succ_prim H (JSValue.boolean b) seen n rfl]; simp
    · rw [traverseAux_succ_prim H (JSValue.number m) seen n rfl]; simp
    · rw [traverseAux_succ_prim H (JSValue.string s) seen n rfl]; simp
    · rw [traverseAux_succ_obj]
      split
      · split
        · simp
        · simpa using Nat.succ_le_succ (ih _ _)
      · simp

/-- With at least one iteration, the starting value is yielded first. -/
theorem traverseAux_head (H : Heap) (n : Nat) (cur : JSValue) (seen : List Nat) :
    (traverseAux H cur seen (n + 1)).1.head? = some cur := by
  rcases cur with _ | _ | b | m | s | id
  · rw [traverseAux_succ_prim H JSValue.undef seen n rfl]; rfl
  · rw [traverseAux_succ_prim H JSValue.null seen n rfl]; rfl
  · rw [traverseAux_succ_prim H (JSValue.boolean b) seen n rfl]; rfl
  · rw [traverseAux_succ_prim H (JSValue.number m) seen n rfl]; rfl
  · rw [traverseAux_succ_prim H (JSValue.string s) seen n rfl]; rfl
  · rw [traverseAux_succ_obj]
    split
    · split <;> simp
    · simp

/-- A trace that does not end in the circular throw yields pairwise
distinct values, none of which is an already-seen object. -/
theorem traverseAux_nodup (H : Heap) :
    ∀ (fuel : Nat) (cur : JSValue) (seen : List Nat),
      (∀ id ∈ seen, isErrorWithCause H (JSValue.obj id) = true) →
      (traverseAux H cur seen fuel).2 = false →
      (traverseAux H cur seen fuel).1.Nodup ∧
        ∀ id, JSValue.obj id ∈ (traverseAux H cur seen fuel).1 → id ∉ seen := by
  intro fuel
  induction fuel with
  | zero => intro cur seen _ _; simp [traverseAux_zero]
  | succ n ih =>
    intro cur seen hseen hflag
    by_cases hc : isErrorWithCause H cur = true
    · obtain ⟨id, rfl⟩ := isErrorWithCause_obj H cur hc
      by_cases hmem : id ∈ seen
      · rw [traverseAux_succ_obj] at hflag
        simp [hc, hmem] at hflag
      · rw [traverseAux_succ_obj] at hflag
        simp only [hc, if_true, hmem, if_false] at hflag
        rw [traverseAux_succ_obj]
        simp only [hc, if_true, hmem, if_false]
        have hseen' : ∀ j ∈ id :: seen,
            isErrorWithCause H (JSValue.obj j) = true := by
          intro j hj
          rcases List.mem_cons.mp hj with h | h
          · subst h; exact hc
          · exact hseen j h
        have hrec := ih (getProp H (JSValue.obj id) "cause") (id :: seen)
          hseen' hflag
        constructor
        · rw [List.nodup_cons]
          refine ⟨?_, hrec.1⟩
          intro hin
          have := hrec.2 id hin
          exact this (List.mem_cons_self id seen)
        · intro j hj
          rcases List.mem_cons.mp hj with h | h
          · have hji : j = id := by
              injection h
            subst hji
            exact hmem
          · have := hrec.2 j h
            intro hjs
            exact this (List.mem_cons_of_mem id hjs)
    · have hobj : objId? cur = none ∨ ∃ id, cur = JSValue.obj id := by
        rcases cur with _ | _ | b | m | s | id
        · exact Or.inl rfl
        · exact Or.inl rfl
        · exact Or.inl rfl
        · exact Or.inl rfl
        · exact Or.inl rfl
        · exact Or.inr ⟨id, rfl⟩
      have hyield : traverseAux H cur seen (n + 1) = ([cur], false) := by
        rcases hobj with h | ⟨id, rfl⟩
        · exact traverseAux_succ_prim H cur seen n h
        · rw [traverseAux_succ_obj]
          simp [hc]
      rw [hyield]
      refine ⟨by simp, ?_⟩
      intro j hj
      have hcur : JSValue.obj j = cur := by simpa using hj
      intro hjs
      exact hc (hcur ▸ hseen j hjs)

/-- A trace that ends in the circular throw ends with one last yield of an
object that is either an initially-seen id or a value already yielded
earlier in this very trace. -/
theorem traverseAux_cycle (H : Heap) :
    ∀ (fuel : Nat) (cur : JSValue) (seen : List Nat),
      (traverseAux H cur seen fuel).2 = true →
      ∃ l id, (traverseAux H cur seen fuel).1 = l ++ [JSValue.obj id] ∧
        (id ∈ seen ∨ JSValue.obj id ∈ l) := by
  intro fuel
  induction fuel with
  | zero => intro cur seen hflag; simp [traverseAux_zero] at hflag
  | succ n ih =>
    intro cur seen hflag
    by_cases hc : isErrorWithCause H cur = true
    · obtain ⟨id, rfl⟩ := isErrorWithCause_obj H cur hc
      by_cases hmem : id ∈ seen
      · rw [traverseAux_succ_obj]
        simp only [hc, if_true, hmem, if_false]
        exact ⟨[], id, by simp, Or.inl hmem⟩
      · rw [traverseAux_succ_obj] at hflag
        simp only [hc, if_true, hmem, if_false] at hflag
        rw [traverseAux_succ_obj]
        simp only [hc, if_true, hmem, if_false]
        obtain ⟨l, j, hl, hj⟩ := ih (getProp H (JSValue.obj id) "cause")
          (id :: seen) hflag
        refine ⟨JSValue.obj id :: l, j, ?_, ?_⟩
        · simp [hl]
        · rcases hj with h | h
          · rcases List.mem_cons.mp h with h' | h'
            · subst h'
              exact Or.inr (List.mem_cons_self _ _)
            · exact Or.inl h'
          · exact Or.inr (List.mem_cons_of_mem _ h)
    · have hobj : objId? cur = none ∨ ∃ id, cur = JSValue.obj id := by
        rcases cur with _ | _ | b | m | s | id
        · exact Or.inl rfl
        · exact Or.inl rfl
        · exact Or.inl rfl
        · exact Or.inl rfl
        · exact Or.inl rfl
        · exact Or.inr ⟨id, rfl⟩
      have hyield : traverseAux H cur seen (n + 1) = ([cur], false) := by
        rcases hobj with h | ⟨id, rfl⟩
        · exact traverseAux_succ_prim H cur seen n h
        · rw [traverseAux_succ_obj]
          simp [hc]
      rw [hyield] at hflag
      simp at hflag

/-- The default value of `getLastD` only matters for the empty list. -/
theorem getLastD_mem_or_nil {α : Type} :
    ∀ (l : List α) (d : α), l = [] ∨ l.getLastD d ∈ l := by
  intro l
  induction l with
  | nil => intro d; exact Or.inl rfl
  | cons a t ih =>
    intro d
    right
    rw [List.getLastD_cons]
    rcases ih a with h | h
    · subst h; simp [List.getLastD]
    · exact List.mem_cons_of_mem _ h

/-! The claim theorems. -/

/-- C1: the repository's `isStructuredError` is `instanceof`-only, so the
retryable-shape predicate rejects the duck-typed plain object
`{ code: "ERR", category: "CAT", retryable: true }` and `isChainRetryable`
returns `false` both on that object and on a chain containing it — even
though the two-phase duck-typing variant of the guard shipped in the
repository (the behaviour its guard test suite asserts) accepts the very
same object. -/
theorem c1_guard_rejects_duck_typed_shape :
    isStructuredErrorDuckTyped duckHeap (JSValue.obj 0) = true ∧
    getProp duckHeap (JSValue.obj 0) "retryable" = JSValue.boolean true ∧
    isStructuredError duckHeap (JSValue.obj 0) = false ∧
    isRetryableStructuredError duckHeap (JSValue.obj 0) = false ∧
    isChainRetryable duckHeap (JSValue.obj 0) = .ok false ∧
    isChainRetryable duckHeap (JSValue.obj 1) = .ok false :=
  ⟨rfl, rfl, rfl, rfl, rfl, rfl⟩

/-- C2 (counterexample): on the self-loop `A.cause = A` the generator
yields `A` a second time before signalling the circular failure, so the
sequence does not yield each node at most once; and for `maxDepth = -1`
the sequence is empty, so the starting value is not its first element. -/
theorem c2_counterexample :
    (traverseCauseChain selfLoopHeap (JSValue.obj 0) 100).1 =
      [JSValue.obj 0, JSValue.obj 0] ∧
    (traverseCauseChain selfLoopHeap (JSValue.obj 0) 100).2 = true ∧
    ¬ (traverseCauseChain selfLoopHeap (JSValue.obj 0) 100).1.Nodup ∧
    (traverseCauseChain selfLoopHeap (JSValue.obj 0) (-1)).1 = [] :=
  ⟨rfl, rfl, by decide, rfl⟩

/-- C2 (amended): for `maxDepth ≥ 0` the chain sequence yields the
starting value first; a traversal that terminates without the circular
failure yields each node at most once; a traversal that signals the
circular failure yields the revisited value one final time — its last
yielded element already occurs earlier in the sequence — and only then
fails. -/
theorem c2_chain_sequence_amended (H : Heap) (start : JSValue) (maxDepth : Int) :
    (0 ≤ maxDepth → (traverseCauseChain H start maxDepth).1.head? = some start) ∧
    ((traverseCauseChain H start maxDepth).2 = false →
      (traverseCauseChain H start maxDepth).1.Nodup) ∧
    ((traverseCauseChain H start maxDepth).2 = true →
      ∃ l v, (traverseCauseChain H start maxDepth).1 = l ++ [v] ∧ v ∈ l) := by
  refine ⟨?_, ?_, ?_⟩
  · intro hd
    have h1 : (maxDepth + 1).toNat = maxDepth.toNat + 1 := by omega
    unfold traverseCauseChain
    rw [h1]
    exact traverseAux_head H maxDepth.toNat start []
  · intro hfl
    exact (traverseAux_nodup H ((maxDepth + 1).toNat) start [] (by simp) hfl).1
  · intro hfl
    obtain ⟨l, id, hl, hid⟩ :=
      traverseAux_cycle H ((maxDepth + 1).toNat) start [] hfl
    refine ⟨l, JSValue.obj id, hl, ?_⟩
    rcases hid with h | h
    · simp at h
    · exact h

/-- C2 (witness): the amended statement instantiated on the two-node
cycle with the default depth. -/
theorem c2_chain_sequence_amended_witness :
    (traverseCauseChain twoCycleHeap (JSValue.obj 0) 100).1.head? =
      some (JSValue.obj 0) ∧
    ∃ l v, (traverseCauseChain twoCycleHeap (JSValue.obj 0) 100).1 = l ++ [v] ∧
      v ∈ l :=
  ⟨(c2_chain_sequence_amended twoCycleHeap (JSValue.obj 0) 100).1 (by decide),
   (c2_chain_sequence_amended twoCycleHeap (JSValue.obj 0) 100).2.2 rfl⟩

/-- C3 (counterexample): starting from the value `undefined` with an
always-true predicate, `undefined` is a chain node satisfying the
predicate and `findInCauseChain` returns it as its match, yet
`someCauseChain` returns `false`, because the matched node is
indistinguishable from the no-match return value `undefined`. -/
theorem c3_counterexample :
    JSValue.undef ∈ (traverseCauseChain (heapOfList []) JSValue.undef 100).1 ∧
    findInCauseChain (heapOfList []) JSValue.undef (fun _ => true) 100 =
      .ok JSValue.undef ∧
    someCauseChain (heapOfList []) JSValue.undef (fun _ => true) 100 = .ok false :=
  ⟨by decide, rfl, rfl⟩

/-- C3 (amended): `someCauseChain` returns `true` iff `findInCauseChain`
returns a matching node that is distinct from the value `undefined`; a
predicate match whose matched node is `undefined` itself is reported as
`false`. -/
theorem c3_some_iff_find_amended (H : Heap) (start : JSValue)
    (p : JSValue → Bool) (maxDepth : Int) :
    someCauseChain H start p maxDepth = .ok true ↔
      ∃ v, findInCauseChain H start p maxDepth = .ok v ∧ p v = true ∧
        v ≠ JSValue.undef := by
  unfold someCauseChain findInCauseChain
  cases hf : (traverseCauseChain H start maxDepth).1.find? p with
  | some w =>
    have hpw := List.find?_some hf
    simp only [hf, Except.map]
    by_cases hw : w = JSValue.undef
    · subst hw
      simp
    · simp [hw, hpw]
  | none =>
    by_cases ht : (traverseCauseChain H start maxDepth).2 = true
    · simp [hf, ht, Except.map]
    · simp only [Bool.not_eq_true] at ht
      simp [hf, ht, Except.map]

/-- C3 (witness): the amended equivalence instantiated on a one-node
chain whose node matches the predicate and is not `undefined`. -/
theorem c3_some_iff_find_amended_witness :
    someCauseChain (heapOfList []) (JSValue.string "x")
      (fun v => v == JSValue.string "x") 100 = .ok true :=
  (c3_some_iff_find_amended (heapOfList []) (JSValue.string "x")
      (fun v => v == JSValue.string "x") 100).mpr
    ⟨JSValue.string "x", rfl, by decide, by decide⟩

/-- C4: on the two-node cycle `A.cause = B; B.cause = A` with the default
depth, `getRootCause` raises the circular-chain failure from either end,
while `findInCauseChain` with an always-true predicate returns `A`
without raising. -/
theorem c4_cycle_symmetry :
    getRootCause twoCycleHeap (JSValue.obj 0) = .error circularMsg ∧
    getRootCause twoCycleHeap (JSValue.obj 1) = .error circularMsg ∧
    findInCauseChain twoCycleHeap (JSValue.obj 0) (fun _ => true) =
      .ok (JSValue.obj 0) :=
  ⟨rfl, rfl, rfl⟩

/-- C9: on the two-node cycle, `getRootCause(A, 1)` ends by depth
truncation and returns `B` without raising; one more unit of depth makes
the cycle check fire. -/
theorem c9_cycle_past_depth_bound_truncates :
    getRootCause twoCycleHeap (JSValue.obj 0) 1 = .ok (JSValue.obj 1) ∧
    getRootCause twoCycleHeap (JSValue.obj 0) 2 = .error circularMsg :=
  ⟨rfl, rfl⟩

/-- C5: the trace yields at most `maxDepth + 1` nodes, and every
traversal-based operation is total: it either returns a result or raises
exactly the circular-chain failure. -/
theorem c5_bounded_termination (H : Heap) (start : JSValue)
    (p : JSValue → Bool) (maxDepth : Int) :
    (traverseCauseChain H start maxDepth).1.length ≤ (maxDepth + 1).toNat ∧
    ((∃ v, getRootCause H start maxDepth = .ok v) ∨
      getRootCause H start maxDepth = .error circularMsg) ∧
    ((∃ v, findInCauseChain H start p maxDepth = .ok v) ∨
      findInCauseChain H start p maxDepth = .error circularMsg) ∧
    ((∃ l, filterCauseChain H start p maxDepth = .ok l) ∨
      filterCauseChain H start p maxDepth = .error circularMsg) ∧
    ((∃ b, someCauseChain H start p maxDepth = .ok b) ∨
      someCauseChain H start p maxDepth = .error circularMsg) ∧
    ((∃ b, everyCauseChain H start p maxDepth = .ok b) ∨
      everyCauseChain H start p maxDepth = .error circularMsg) := by
  refine ⟨traverseAux_length_le H _ start [], ?_, ?_, ?_, ?_, ?_⟩
  · unfold getRootCause
    by_cases ht : (traverseCauseChain H start maxDepth).2 <;> simp [ht]
  · unfold findInCauseChain
    cases hf : (traverseCauseChain H start maxDepth).1.find? p with
    | some w => simp [hf]
    | none =>
      by_cases ht : (traverseCauseChain H start maxDepth).2 <;> simp [hf, ht]
  · unfold filterCauseChain
    by_cases ht : (traverseCauseChain H start maxDepth).2 <;> simp [ht]
  · unfold someCauseChain findInCauseChain
    cases hf : (traverseCauseChain H start maxDepth).1.find? p with
    | some w =>
      simp [hf, Except.map]
      exact eq_or_ne w JSValue.undef
    | none =>
      by_cases ht : (traverseCauseChain H start maxDepth).2 <;>
        simp [hf, ht, Except.map]
  · unfold everyCauseChain
    by_cases ha : (traverseCauseChain H start maxDepth).1.all p <;>
      by_cases ht : (traverseCauseChain H start maxDepth).2 <;> simp [ha, ht]

/-- Trace of the traversal over a linear chain: starting at node `i` with
`f + 1` iterations available and at least that many nodes ahead, the trace
ends without failure and its last yield is node `i + f`. -/
theorem traverseAux_lin (n : Nat) :
    ∀ (f i : Nat) (seen : List Nat), (∀ j ∈ seen, j < i) → i + f + 1 ≤ n →
      (traverseAux (linHeap n) (JSValue.obj i) seen (f + 1)).2 = false ∧
      ∀ d, (traverseAux (linHeap n) (JSValue.obj i) seen (f + 1)).1.getLastD d =
        JSValue.obj (i + f) := by
  intro f
  induction f with
  | zero =>
    intro i seen hseen hn
    have hmem : i ∉ seen := fun h => absurd (hseen i h) (lt_irrefl i)
    by_cases hc : i + 1 < n
    · have hcause : isErrorWithCause (linHeap n) (JSValue.obj i) = true := by
        simp [isErrorWithCause, typeofIsObject, hasProp, getOwn, linHeap,
          List.lookup, hc]
      rw [traverseAux_succ_obj]
      simp [hcause, hmem, traverseAux_zero, List.getLastD]
    · have hcause : isErrorWithCause (linHeap n) (JSValue.obj i) = false := by
        simp [isErrorWithCause, typeofIsObject, hasProp, getOwn, linHeap,
          List.lookup, emptyObj, hc]
      rw [traverseAux_succ_obj]
      simp [hcause, List.getLastD]
  | succ m ih =>
    intro i seen hseen hn
    have hc : i + 1 < n := by omega
    have hcause : isErrorWithCause (linHeap n) (JSValue.obj i) = true := by
      simp [isErrorWithCause, typeofIsObject, hasProp, getOwn, linHeap,
        List.lookup, hc]
    have hmem : i ∉ seen := fun h => absurd (hseen i h) (lt_irrefl i)
    have hgp : getProp (linHeap n) (JSValue.obj i) "cause" = JSValue.obj (i + 1) := by
      simp [getProp, getOwn, linHeap, List.lookup, hc]
    have hrec := ih (i + 1) (i :: seen)
      (by
        intro j hj
        rcases List.mem_cons.mp hj with h | h
        · omega
        · exact Nat.lt_succ_of_lt (hseen j h))
      (by omega)
    rw [traverseAux_succ_obj]
    simp only [hcause, if_true, hmem, if_false, hgp]
    refine ⟨hrec.1, ?_⟩
    intro d
    rw [List.getLastD_cons, hrec.2 (JSValue.obj i)]
    have : i + 1 + m = i + (m + 1) := by omega
    rw [this]

/-- C6: on an acyclic linear chain of `N` nodes, `getRootCause` with
`maxDepth = k < N - 1` returns the node at index `k`, not the true
deepest node — depth exhaustion is silent truncation, not a failure. -/
theorem c6_depth_bound_truncation (N k : Nat) (h : k < N - 1) :
    getRootCause (linHeap N) (JSValue.obj 0) (k : Int) = .ok (JSValue.obj k) ∧
    JSValue.obj k ≠ JSValue.obj (N - 1) := by
  have hfuel : ((k : Int) + 1).toNat = k + 1 := by omega
  have hlin := traverseAux_lin N k 0 [] (by simp) (by omega)
  constructor
  · simp only [getRootCause, traverseCauseChain]
    rw [hfuel]
    rw [if_neg (by simp [hlin.1])]
    rw [hlin.2 (JSValue.obj 0)]
    simp
  · intro he
    have hk : k = N - 1 := by injection he
    omega

/-- C6 (witness): the depth-bound theorem at the spec's example, a chain
of 10 nodes truncated at depth 3. -/
theorem c6_depth_bound_truncation_witness :
    3 < 10 - 1 ∧
    getRootCause (linHeap 10) (JSValue.obj 0) ((3 : Nat) : Int) =
      .ok (JSValue.obj 3) :=
  ⟨by decide, (c6_depth_bound_truncation 10 3 (by decide)).1⟩

/-- C7: `getRootCause` returns the terminal node exactly as encountered:
any starting value without a cause (primitives, `null`, `undefined`,
objects with no `cause` key) is returned itself, and a chain whose
`cause` is `null`, `undefined` or a primitive ends by returning that
value as-is, not by failing. -/
theorem c7_terminal_returned_as_is (H : Heap) (x : JSValue) (maxDepth : Int) :
    (isErrorWithCause H x = false → getRootCause H x maxDepth = .ok x) ∧
    (∀ id v, x = JSValue.obj id → getOwn (H id) "cause" = some v →
      isErrorWithCause H v = false → 1 ≤ maxDepth →
      getRootCause H x maxDepth = .ok v) := by
  constructor
  · intro hx
    unfold getRootCause traverseCauseChain
    cases hfuel : (maxDepth + 1).toNat with
    | zero => simp [traverseAux_zero, List.getLastD]
    | succ m =>
      have hyield : traverseAux H x [] (m + 1) = ([x], false) := by
        rcases isErrorWithCause_obj H x with hobj
        rcases x with _ | _ | b | mm | s | id
        · exact traverseAux_succ_prim H JSValue.undef [] m rfl
        · exact traverseAux_succ_prim H JSValue.null [] m rfl
        · exact traverseAux_succ_prim H (JSValue.boolean b) [] m rfl
        · exact traverseAux_succ_prim H (JSValue.number mm) [] m rfl
        · exact traverseAux_succ_prim H (JSValue.string s) [] m rfl
        · rw [traverseAux_succ_obj]; simp [hx]
      simp [hyield, List.getLastD]
  · intro id v hxid hcv hv hd
    subst hxid
    obtain ⟨m, hm⟩ : ∃ m, (maxDepth + 1).toNat = m + 2 :=
      ⟨(maxDepth - 1).toNat, by omega⟩
    have hcause : isErrorWithCause H (JSValue.obj id) = true := by
      simp [isErrorWithCause, typeofIsObject, hasProp, hcv]
    have hgp : getProp H (JSValue.obj id) "cause" = v := by
      simp [getProp, hcv]
    have hone : traverseAux H v (id :: []) (m + 1) = ([v], false) := by
      rcases v with _ | _ | b | mm | s | j
      · exact traverseAux_succ_prim H JSValue.undef _ m rfl
      · exact traverseAux_succ_prim H JSValue.null _ m rfl
      · exact traverseAux_succ_prim H (JSValue.boolean b) _ m rfl
      · exact traverseAux_succ_prim H (JSValue.number mm) _ m rfl
      · exact traverseAux_succ_prim H (JSValue.string s) _ m rfl
      · rw [traverseAux_succ_obj]; simp [hv]
    unfold getRootCause traverseCauseChain
    rw [hm]
    rw [show m + 2 = (m + 1) + 1 from rfl, traverseAux_succ_obj]
    simp [hcause, hgp, hone, List.getLastD_cons, List.getLastD]

/-- C7 (witness): the terminal-identity theorem at a causeless primitive
start and at a chain whose `cause` is `null`. -/
theorem c7_terminal_returned_as_is_witness :
    isErrorWithCause nullCauseHeap (JSValue.string "s") = false ∧
    getRootCause nullCauseHeap (JSValue.string "s") 100 =
      .ok (JSValue.string "s") ∧
    getRootCause nullCauseHeap (JSValue.obj 0) 100 = .ok JSValue.null :=
  ⟨rfl,
   (c7_terminal_returned_as_is nullCauseHeap (JSValue.string "s") 100).1 rfl,
   (c7_terminal_returned_as_is nullCauseHeap (JSValue.obj 0) 100).2 0
     JSValue.null rfl rfl rfl (by decide)⟩

/-- C8: retryability monotonicity — whenever `getRootCauseRetryable`
returns `true` (so the traversal did not raise), `isChainRetryable`
returns `true` as well, the root being a member of the bounded chain; the
converse fails on a chain whose top is retryable but whose root is not. -/
theorem c8_retryability_monotone (H : Heap) (x : JSValue)
    (h : getRootCauseRetryable H x = .ok true) :
    isChainRetryable H x = .ok true ∧
    isChainRetryable topRetryableHeap (JSValue.obj 0) = .ok true ∧
    getRootCauseRetryable topRetryableHeap (JSValue.obj 0) = .ok false := by
  refine ⟨?_, rfl, rfl⟩
  unfold getRootCauseRetryable getRootCause at h
  by_cases ht : (traverseCauseChain H x 100).2 = true
  · simp [ht, Except.map] at h
  · simp only [Bool.not_eq_true] at ht
    simp only [ht, Bool.false_eq_true, if_false, Except.map, Except.ok.injEq] at h
    have hh : (traverseCauseChain H x 100).1.head? = some x := by
      have := traverseAux_head H 100 x []
      exact this
    have hne : (traverseCauseChain H x 100).1 ≠ [] := by
      intro hnil
      rw [hnil] at hh
      simp at hh
    have hmem : (traverseCauseChain H x 100).1.getLastD x ∈
        (traverseCauseChain H x 100).1 := by
      rcases getLastD_mem_or_nil ((traverseCauseChain H x 100).1) x with h0 | h0
      · exact absurd h0 hne
      · exact h0
    cases hfind : (traverseCauseChain H x 100).1.find?
        (fun e => isRetryableStructuredError H e) with
    | none =>
      exact absurd h (List.find?_eq_none.mp hfind _ hmem)
    | some w =>
      have hw : isRetryableStructuredError H w = true := List.find?_some hfind
      have hwobj : ∃ id, w = JSValue.obj id := by
        rcases w with _ | _ | b | m | s | id
        · simp [isRetryableStructuredError, isStructuredError] at hw
        · simp [isRetryableStructuredError, isStructuredError] at hw
        · simp [isRetryableStructuredError, isStructuredError] at hw
        · simp [isRetryableStructuredError, isStructuredError] at hw
        · simp [isRetryableStructuredError, isStructuredError] at hw
        · exact ⟨id, rfl⟩
      obtain ⟨id, rfl⟩ := hwobj
      unfold isChainRetryable findInCauseChain
      simp [hfind, Except.map]

/-- C8 (witness): the monotonicity theorem at a single retryable
structured-error instance. -/
theorem c8_retryability_monotone_witness :
    getRootCauseRetryable retryableRootHeap (JSValue.obj 0) = .ok true ∧
    isChainRetryable retryableRootHeap (JSValue.obj 0) = .ok true :=
  ⟨rfl, (c8_retryability_monotone retryableRootHeap (JSValue.obj 0) rfl).1⟩

/-- C10: with a negative `maxDepth` the chain sequence is empty, so
`findInCauseChain` returns `undefined`, `someCauseChain` returns `false`,
`filterCauseChain` returns the empty collection, `everyCauseChain`
returns `true` (even for predicates that hold of the start), while
`getRootCause` still returns the starting value. -/
theorem c10_negative_depth_empty_chain (H : Heap) (start : JSValue)
    (p : JSValue → Bool) (maxDepth : Int) (h : maxDepth < 0) :
    findInCauseChain H start p maxDepth = .ok JSValue.undef ∧
    someCauseChain H start p maxDepth = .ok false ∧
    filterCauseChain H start p maxDepth = .ok [] ∧
    everyCauseChain H start p maxDepth = .ok true ∧
    getRootCause H start maxDepth = .ok start := by
  have hfuel : (maxDepth + 1).toNat = 0 := by omega
  have ht : traverseCauseChain H start maxDepth = ([], false) := by
    unfold traverseCauseChain
    rw [hfuel]
    rfl
  refine ⟨?_, ?_, ?_, ?_, ?_⟩ <;>
    simp [findInCauseChain, someCauseChain, filterCauseChain, everyCauseChain,
      getRootCause, ht, Except.map, List.getLastD]

/-- C10 (witness): negative-depth behaviour at `maxDepth = -1` with an
always-true predicate. -/
theorem c10_negative_depth_empty_chain_witness :
    (-1 : Int) < 0 ∧
    someCauseChain (heapOfList []) (JSValue.string "x") (fun _ => true) (-1) =
      .ok false ∧
    everyCauseChain (heapOfList []) (JSValue.string "x") (fun _ => true) (-1) =
      .ok true ∧
    getRootCause (heapOfList []) (JSValue.string "x") (-1) =
      .ok (JSValue.string "x") :=
  ⟨by decide,
   (c10_negative_depth_empty_chain (heapOfList []) (JSValue.string "x")
      (fun _ => true) (-1) (by decide)).2.1,
   (c10_negative_depth_empty_chain (heapOfList []) (JSValue.string "x")
      (fun _ => true) (-1) (by decide)).2.2.2.1,
   (c10_negative_depth_empty_chain (heapOfList []) (JSValue.string "x")
      (fun _ => true) (-1) (by decide)).2.2.2.2⟩

end BaseErrorTs
